import Mathlib

/-!
Verification of the PCB defect detection app (src/app.py).

The core under study is the defect-report synthesis in
`show_prediction_page`: starting from the detected class labels it
deduplicates them and resolves each unique label against the static
`DEFECT_SOLUTIONS` table, first by exact key membership and then by a
case-insensitive scan of the keys in table order; labels with no match
are reported as unresolved.  We also embed the sign-up and log-in
submit handlers and the page router at the bottom of the file.

External collaborators (the YOLO model, streamlit rendering, hashlib)
are abstracted at the boundary: detections are inputs, rendering is
dropped, and `hashlib.sha256(...).hexdigest()` is a parameter
`hashFn : String → String` of the handlers that call it.
-/

namespace PCBDefect

set_option maxRecDepth 40000

/-- One entry of `DEFECT_SOLUTIONS`: a description and a solution text. -/
structure Record where
  description : String
  solution : String
deriving DecidableEq

/-- The `Missing_hole` entry of `DEFECT_SOLUTIONS`. -/
def missingHoleRecord : Record :=
  { description := "A hole that was supposed to be drilled is absent.",
    solution := "1. Review the drilling program for errors. 2. Manually drill the missing hole if possible. 3. Re-fabricate the board if the defect is critical." }

/-- The `Mouse_bite` entry of `DEFECT_SOLUTIONS`. -/
def mouseBiteRecord : Record :=
  { description := "A small indentation or nick on the edge of a trace or pad.",
    solution := "1. Check for mechanical damage during handling. 2. For minor bites, the board may pass quality checks. 3. For severe bites, the board must be rejected to prevent an open circuit." }

/-- The `Open_circuit` entry of `DEFECT_SOLUTIONS`. -/
def openCircuitRecord : Record :=
  { description := "A break in a copper trace, preventing electrical flow.",
    solution := "1. Use a continuity tester to confirm the break. 2. Repair by soldering a jumper wire across the break. 3. If repair is not feasible, the board must be discarded." }

/-- The `Short` entry of `DEFECT_SOLUTIONS`. -/
def shortRecord : Record :=
  { description := "Two separate traces are accidentally connected, creating a path for electrical flow where there should not be one.",
    solution := "1. Use a multimeter to locate the short. 2. Carefully scrape the copper to remove the short. 3. Check for any solder bridges or foreign material causing the short." }

/-- The `Spur` entry of `DEFECT_SOLUTIONS`. -/
def spurRecord : Record :=
  { description := "A sharp protrusion extending from a trace, potentially causing a short with other components.",
    solution := "1. Carefully scrape the copper to remove the spur. 2. Use a microscope to ensure the entire spur has been removed. 3. Check for shorts after repair." }

/-- The `Spurious_copper` entry of `DEFECT_SOLUTIONS`. -/
def spuriousCopperRecord : Record :=
  { description := "Unwanted copper residue that may cause shorts or other issues.",
    solution := "1. Carefully remove the spurious copper using appropriate etching or mechanical methods. 2. Check surrounding areas for additional copper residue. 3. Test for shorts after removal." }

/-- The static remediation table `DEFECT_SOLUTIONS` of src/app.py, a Python
dict embedded as an association list in its insertion (= iteration) order. -/
def DEFECT_SOLUTIONS : List (String × Record) :=
  [("Missing_hole", missingHoleRecord),
   ("Mouse_bite", mouseBiteRecord),
   ("Open_circuit", openCircuitRecord),
   ("Short", shortRecord),
   ("Spur", spurRecord),
   ("Spurious_copper", spuriousCopperRecord)]

/-- One detection produced by the model: `model.names[int(box.cls[0])]` and
`float(box.conf[0])`.  The confidence is only displayed, never computed with,
so we carry it as a rational number. -/
structure Detection where
  label : String
  conf : Rat
deriving DecidableEq

/-- The synthesized report: the unique detected labels, the resolved entries
`(input label, matched key, matched record)`, and the unresolved labels. -/
structure DefectReport where
  uniqueLabels : List String
  resolved : List (String × String × Record)
  unresolved : List String
deriving DecidableEq

/-- Exact lookup, `defect in DEFECT_SOLUTIONS` followed by
`DEFECT_SOLUTIONS[defect]`: the first table entry whose key equals the label. -/
def exactLookup (table : List (String × Record)) (defect : String) :
    Option (String × Record) :=
  table.find? (fun kv => kv.1 == defect)

/-- Python's `str.lower()` on the labels and keys in play (all ASCII):
per-character lowercasing. -/
def pyLower (s : String) : String :=
  String.mk (s.data.map Char.toLower)

/-- The case-insensitive fallback loop
`for solution_key in DEFECT_SOLUTIONS.keys(): if defect.lower() == solution_key.lower(): ...; break`:
the first table entry (in table order) whose lowered key equals the lowered label. -/
def ciLookup (table : List (String × Record)) (defect : String) :
    Option (String × Record) :=
  table.find? (fun kv => pyLower defect == pyLower kv.1)

/-- Resolution of one label, lines 196-214 of src/app.py: exact match first,
case-insensitive scan on miss, `none` when both fail (the for-else warning). -/
def resolveLabel (table : List (String × Record)) (defect : String) :
    Option (String × Record) :=
  match exactLookup table defect with
  | some kv => some kv
  | none => ciLookup table defect

/-- Report synthesis, lines 188-214 of src/app.py: deduplicate the detected
labels (`unique_defects = set(detected_defects)`), then resolve each one.
Resolved labels are emitted with the matched key and record; labels that
resolve to nothing are collected as unresolved. -/
def synthesize (table : List (String × Record)) (dets : List Detection) :
    DefectReport :=
  let unique := (dets.map Detection.label).dedup
  { uniqueLabels := unique,
    resolved := unique.filterMap (fun l =>
      (resolveLabel table l).map (fun kv => (l, kv))),
    unresolved := unique.filter (fun l => (resolveLabel table l).isNone) }

/-- The labels of the resolved entries of a report. -/
def resolvedLabels (r : DefectReport) : List String :=
  r.resolved.map (fun e => e.1)

/-- The streamlit session state touched by the handlers: `logged_in`,
`username`, `page` and the `users` dict (an association list, insertion
order preserved as in a Python dict). -/
structure SessionState where
  logged_in : Bool
  username : String
  page : String
  users : List (String × String)
deriving DecidableEq

/-- Dict lookup `users[u]` / membership `u in users`: the value of the first
entry with key `u`, if any. -/
def getUser (users : List (String × String)) (u : String) : Option String :=
  (users.find? (fun kv => kv.1 == u)).map (fun kv => kv.2)

/-- The two hard-coded accounts seeding `st.session_state.users`. -/
def initialUsers (hashFn : String → String) : List (String × String) :=
  [("testuser", hashFn "password123"),
   ("john.doe", hashFn "securepass")]

/-- The sign-up submit handler, lines 104-113 of src/app.py: empty username
or password is rejected, an existing username is rejected, otherwise the new
user is inserted (`st.session_state.users[new_username] = sha256(...)`, a
fresh dict key, hence an append) and the page moves to login. -/
def signupSubmit (hashFn : String → String) (s : SessionState)
    (new_username new_password : String) : SessionState :=
  if new_username = "" ∨ new_password = "" then s
  else if (getUser s.users new_username).isSome then s
  else { s with users := s.users ++ [(new_username, hashFn new_password)],
                page := "login" }

/-- The log-in submit handler, lines 129-137 of src/app.py: on
`username in users and users[username] == password_hash` the session is
marked logged in and moved to the prediction page; otherwise only an error
is displayed and the session state is untouched. -/
def loginSubmit (hashFn : String → String) (s : SessionState)
    (username password : String) : SessionState :=
  if getUser s.users username = some (hashFn password) then
    { s with logged_in := true, username := username, page := "prediction" }
  else s

/-- What the router at the bottom of src/app.py renders. -/
inductive RenderedPage
  | home
  | signup
  | login
  | prediction
  | rerunToHome
deriving DecidableEq

/-- The page router, lines 254-265 of src/app.py: the prediction page is
rendered only when `logged_in` holds and `page == "prediction"`; any other
inconsistent state falls through to home with a rerun. -/
def route (s : SessionState) : RenderedPage :=
  if s.page = "home" then RenderedPage.home
  else if s.page = "signup" then RenderedPage.signup
  else if s.page = "login" then RenderedPage.login
  else if s.logged_in = true ∧ s.page = "prediction" then RenderedPage.prediction
  else RenderedPage.rerunToHome

theorem mem_uniqueLabels_iff (table : List (String × Record)) (dets : List Detection) (l : String) :
    l ∈ (synthesize table dets).uniqueLabels ↔ l ∈ dets.map Detection.label := by
  simp [synthesize, List.mem_dedup]

theorem mem_resolved_iff (table : List (String × Record)) (dets : List Detection)
    (l : String) (kv : String × Record) :
    (l, kv) ∈ (synthesize table dets).resolved ↔
      l ∈ dets.map Detection.label ∧ resolveLabel table l = some kv := by
  simp only [synthesize, List.mem_filterMap, Option.map_eq_some', List.mem_dedup]
  constructor
  · rintro ⟨a, ha, b, hb, hab⟩
    rw [Prod.mk.injEq] at hab
    obtain ⟨rfl, rfl⟩ := hab
    exact ⟨ha, hb⟩
  · rintro ⟨ha, hb⟩
    exact ⟨l, ha, kv, hb, rfl⟩

theorem mem_unresolved_iff (table : List (String × Record)) (dets : List Detection) (l : String) :
    l ∈ (synthesize table dets).unresolved ↔
      l ∈ dets.map Detection.label ∧ resolveLabel table l = none := by
  simp [synthesize, List.mem_filter, List.mem_dedup, Option.isNone_iff_eq_none]

theorem resolveLabel_eq_some_iff (table : List (String × Record)) (l : String) (kv : String × Record) :
    resolveLabel table l = some kv ↔
      exactLookup table l = some kv ∨ (exactLookup table l = none ∧ ciLookup table l = some kv) := by
  unfold resolveLabel
  cases h : exactLookup table l <;> simp [h]

theorem resolveLabel_eq_none_iff (table : List (String × Record)) (l : String) :
    resolveLabel table l = none ↔ exactLookup table l = none ∧ ciLookup table l = none := by
  unfold resolveLabel
  cases h : exactLookup table l <;> simp [h]

theorem exactLookup_isSome_iff (table : List (String × Record)) (l : String) :
    (exactLookup table l).isSome ↔ ∃ rec, (l, rec) ∈ table := by
  unfold exactLookup
  rw [List.find?_isSome]
  constructor
  · rintro ⟨⟨k, rec⟩, hmem, hp⟩
    simp only [beq_iff_eq] at hp
    subst hp
    exact ⟨rec, hmem⟩
  · rintro ⟨rec, hmem⟩
    exact ⟨(l, rec), hmem, by simp⟩

theorem exactLookup_eq_some (table : List (String × Record)) (l : String) (kv : String × Record)
    (h : exactLookup table l = some kv) : kv ∈ table ∧ kv.1 = l := by
  refine ⟨List.mem_of_find?_eq_some h, ?_⟩
  have := List.find?_some h
  simpa using this

theorem exactLookup_eq_none_iff (table : List (String × Record)) (l : String) :
    exactLookup table l = none ↔ ∀ kv ∈ table, kv.1 ≠ l := by
  unfold exactLookup
  rw [List.find?_eq_none]
  simp

theorem ciLookup_eq_some (table : List (String × Record)) (l : String) (kv : String × Record)
    (h : ciLookup table l = some kv) : kv ∈ table ∧ pyLower l = pyLower kv.1 := by
  refine ⟨List.mem_of_find?_eq_some h, ?_⟩
  have := List.find?_some h
  simpa using this

theorem ciLookup_eq_none_iff (table : List (String × Record)) (l : String) :
    ciLookup table l = none ↔ ∀ kv ∈ table, pyLower l ≠ pyLower kv.1 := by
  unfold ciLookup
  rw [List.find?_eq_none]
  simp

theorem ciLookup_isSome_iff (table : List (String × Record)) (l : String) :
    (ciLookup table l).isSome ↔ ∃ kv ∈ table, pyLower l = pyLower kv.1 := by
  unfold ciLookup
  rw [List.find?_isSome]
  simp

/-- Claim C1: for every sequence of detections and the fixed remediation table,
report synthesis processes each unique detected label by (1) exact key
membership in the table; (2) on miss, a scan of the table keys in
table-iteration order taking the first case-insensitive match; (3) on total
miss, recording the label as unresolved. -/
theorem c1_per_label_processing (dets : List Detection) (l : String)
    (hl : l ∈ (synthesize DEFECT_SOLUTIONS dets).uniqueLabels) :
    ((∃ rec, (l, rec) ∈ DEFECT_SOLUTIONS) →
        ∃ rec, (l, rec) ∈ DEFECT_SOLUTIONS ∧
          (l, l, rec) ∈ (synthesize DEFECT_SOLUTIONS dets).resolved)
  ∧ ((∀ rec, (l, rec) ∉ DEFECT_SOLUTIONS) →
      (∃ kv ∈ DEFECT_SOLUTIONS, pyLower l = pyLower kv.1) →
        ∃ pre kv post, DEFECT_SOLUTIONS = pre ++ kv :: post ∧
          pyLower l = pyLower kv.1 ∧
          (∀ kv2 ∈ pre, pyLower l ≠ pyLower kv2.1) ∧
          (l, kv) ∈ (synthesize DEFECT_SOLUTIONS dets).resolved)
  ∧ ((∀ kv ∈ DEFECT_SOLUTIONS, kv.1 ≠ l ∧ pyLower l ≠ pyLower kv.1) →
        l ∈ (synthesize DEFECT_SOLUTIONS dets).unresolved) := by
  have hl2 : l ∈ dets.map Detection.label := (mem_uniqueLabels_iff _ _ _).mp hl
  refine ⟨?_, ?_, ?_⟩
  · rintro ⟨rec, hrec⟩
    have hs : (exactLookup DEFECT_SOLUTIONS l).isSome :=
      (exactLookup_isSome_iff _ _).mpr ⟨rec, hrec⟩
    obtain ⟨kv, hkv⟩ := Option.isSome_iff_exists.mp hs
    obtain ⟨hmem, hkey⟩ := exactLookup_eq_some _ _ _ hkv
    have hkv2 : (l, kv.2) = kv := by rw [← hkey]
    refine ⟨kv.2, ?_, ?_⟩
    · rw [hkv2]
      exact hmem
    · have hres : resolveLabel DEFECT_SOLUTIONS l = some kv :=
        (resolveLabel_eq_some_iff _ _ _).mpr (Or.inl hkv)
      have hin : (l, kv) ∈ (synthesize DEFECT_SOLUTIONS dets).resolved :=
        (mem_resolved_iff _ _ _ _).mpr ⟨hl2, hres⟩
      rw [hkv2]
      exact hin
  · intro hnoexact hci
    have hex : exactLookup DEFECT_SOLUTIONS l = none := by
      rw [exactLookup_eq_none_iff]
      rintro ⟨k, rec⟩ hmem rfl
      exact hnoexact rec hmem
    obtain ⟨kv0, hmem0, hlow0⟩ := hci
    have hs : (ciLookup DEFECT_SOLUTIONS l).isSome :=
      (ciLookup_isSome_iff _ _).mpr ⟨kv0, hmem0, hlow0⟩
    obtain ⟨kv, hkv⟩ := Option.isSome_iff_exists.mp hs
    have hsplit := List.find?_eq_some.mp hkv
    obtain ⟨hp, pre, post, hT, hpre⟩ := hsplit
    refine ⟨pre, kv, post, hT, ?_, ?_, ?_⟩
    · simpa using hp
    · intro kv2 hkv2
      have := hpre kv2 hkv2
      simpa using this
    · have hres : resolveLabel DEFECT_SOLUTIONS l = some kv :=
        (resolveLabel_eq_some_iff _ _ _).mpr (Or.inr ⟨hex, hkv⟩)
      exact (mem_resolved_iff _ _ _ _).mpr ⟨hl2, hres⟩
  · intro hno
    have hres : resolveLabel DEFECT_SOLUTIONS l = none := by
      rw [resolveLabel_eq_none_iff]
      constructor
      · rw [exactLookup_eq_none_iff]
        exact fun kv hkv => (hno kv hkv).1
      · rw [ciLookup_eq_none_iff]
        exact fun kv hkv => (hno kv hkv).2
    exact (mem_unresolved_iff _ _ _).mpr ⟨hl2, hres⟩

/-- Witness for C1 at the single detection ("Short", 0.91). -/
theorem c1_per_label_processing_witness :
    ("Short" ∈ (synthesize DEFECT_SOLUTIONS [⟨"Short", 91/100⟩]).uniqueLabels)
  ∧ (((∃ rec, ("Short", rec) ∈ DEFECT_SOLUTIONS) →
        ∃ rec, ("Short", rec) ∈ DEFECT_SOLUTIONS ∧
          ("Short", "Short", rec) ∈ (synthesize DEFECT_SOLUTIONS [⟨"Short", 91/100⟩]).resolved)
    ∧ ((∀ rec, ("Short", rec) ∉ DEFECT_SOLUTIONS) →
        (∃ kv ∈ DEFECT_SOLUTIONS, pyLower "Short" = pyLower kv.1) →
          ∃ pre kv post, DEFECT_SOLUTIONS = pre ++ kv :: post ∧
            pyLower "Short" = pyLower kv.1 ∧
            (∀ kv2 ∈ pre, pyLower "Short" ≠ pyLower kv2.1) ∧
            ("Short", kv) ∈ (synthesize DEFECT_SOLUTIONS [⟨"Short", 91/100⟩]).resolved)
    ∧ ((∀ kv ∈ DEFECT_SOLUTIONS, kv.1 ≠ "Short" ∧ pyLower "Short" ≠ pyLower kv.1) →
          "Short" ∈ (synthesize DEFECT_SOLUTIONS [⟨"Short", 91/100⟩]).unresolved)) :=
  ⟨by decide, c1_per_label_processing [⟨"Short", 91/100⟩] "Short" (by decide)⟩

theorem mem_resolvedLabels_iff (table : List (String × Record)) (dets : List Detection) (l : String) :
    l ∈ resolvedLabels (synthesize table dets) ↔
      l ∈ dets.map Detection.label ∧ (resolveLabel table l).isSome := by
  unfold resolvedLabels
  constructor
  · intro hmem
    obtain ⟨e, he, hfst⟩ := List.mem_map.mp hmem
    obtain ⟨a, kv⟩ := e
    obtain ⟨ha, hres⟩ := (mem_resolved_iff _ _ _ _).mp he
    have ha2 : a = l := hfst
    subst ha2
    exact ⟨ha, by rw [hres]; rfl⟩
  · rintro ⟨ha, hs⟩
    obtain ⟨kv, hkv⟩ := Option.isSome_iff_exists.mp hs
    exact List.mem_map.mpr ⟨(l, kv), (mem_resolved_iff _ _ _ _).mpr ⟨ha, hkv⟩, rfl⟩

/-- Claim C2: the unique labels partition exactly into the resolved and the
unresolved labels with no overlap; every resolved label matches some table key
under exact-or-case-insensitive equality, and every unresolved label has no
such match. -/
theorem c2_partition (dets : List Detection) (l : String) :
    (l ∈ (synthesize DEFECT_SOLUTIONS dets).uniqueLabels ↔
        l ∈ resolvedLabels (synthesize DEFECT_SOLUTIONS dets) ∨
        l ∈ (synthesize DEFECT_SOLUTIONS dets).unresolved)
  ∧ ¬(l ∈ resolvedLabels (synthesize DEFECT_SOLUTIONS dets) ∧
        l ∈ (synthesize DEFECT_SOLUTIONS dets).unresolved)
  ∧ (l ∈ resolvedLabels (synthesize DEFECT_SOLUTIONS dets) →
        ∃ kv ∈ DEFECT_SOLUTIONS, kv.1 = l ∨ pyLower l = pyLower kv.1)
  ∧ (l ∈ (synthesize DEFECT_SOLUTIONS dets).unresolved →
        ∀ kv ∈ DEFECT_SOLUTIONS, kv.1 ≠ l ∧ pyLower l ≠ pyLower kv.1) := by
  have hres := mem_resolvedLabels_iff DEFECT_SOLUTIONS dets l
  have hunres := mem_unresolved_iff DEFECT_SOLUTIONS dets l
  have huniq := mem_uniqueLabels_iff DEFECT_SOLUTIONS dets l
  refine ⟨?_, ?_, ?_, ?_⟩
  · rw [huniq, hres, hunres]
    cases h : resolveLabel DEFECT_SOLUTIONS l <;> simp [h]
  · rintro ⟨h1, h2⟩
    have hs := (hres.mp h1).2
    have hn := (hunres.mp h2).2
    rw [hn] at hs
    exact Bool.noConfusion hs
  · intro h1
    obtain ⟨kv, hkv⟩ := Option.isSome_iff_exists.mp (hres.mp h1).2
    rcases (resolveLabel_eq_some_iff _ _ _).mp hkv with hex | ⟨hexn, hci⟩
    · obtain ⟨hmem, hkey⟩ := exactLookup_eq_some _ _ _ hex
      exact ⟨kv, hmem, Or.inl hkey⟩
    · obtain ⟨hmem, hlow⟩ := ciLookup_eq_some _ _ _ hci
      exact ⟨kv, hmem, Or.inr hlow⟩
  · intro h2
    obtain ⟨hexn, hcin⟩ := (resolveLabel_eq_none_iff _ _).mp (hunres.mp h2).2
    intro kv hkv
    exact ⟨(exactLookup_eq_none_iff _ _).mp hexn kv hkv,
           (ciLookup_eq_none_iff _ _).mp hcin kv hkv⟩

/-- Witness for C2 at detections [("Short", 0.91), ("Unknown_defect", 0.30)], label "Unknown_defect". -/
theorem c2_partition_witness :
    ("Unknown_defect" ∈ (synthesize DEFECT_SOLUTIONS [⟨"Short", 91/100⟩, ⟨"Unknown_defect", 3/10⟩]).uniqueLabels ↔
        "Unknown_defect" ∈ resolvedLabels (synthesize DEFECT_SOLUTIONS [⟨"Short", 91/100⟩, ⟨"Unknown_defect", 3/10⟩]) ∨
        "Unknown_defect" ∈ (synthesize DEFECT_SOLUTIONS [⟨"Short", 91/100⟩, ⟨"Unknown_defect", 3/10⟩]).unresolved)
  ∧ ¬("Unknown_defect" ∈ resolvedLabels (synthesize DEFECT_SOLUTIONS [⟨"Short", 91/100⟩, ⟨"Unknown_defect", 3/10⟩]) ∧
        "Unknown_defect" ∈ (synthesize DEFECT_SOLUTIONS [⟨"Short", 91/100⟩, ⟨"Unknown_defect", 3/10⟩]).unresolved)
  ∧ ("Unknown_defect" ∈ resolvedLabels (synthesize DEFECT_SOLUTIONS [⟨"Short", 91/100⟩, ⟨"Unknown_defect", 3/10⟩]) →
        ∃ kv ∈ DEFECT_SOLUTIONS, kv.1 = "Unknown_defect" ∨ pyLower "Unknown_defect" = pyLower kv.1)
  ∧ ("Unknown_defect" ∈ (synthesize DEFECT_SOLUTIONS [⟨"Short", 91/100⟩, ⟨"Unknown_defect", 3/10⟩]).unresolved →
        ∀ kv ∈ DEFECT_SOLUTIONS, kv.1 ≠ "Unknown_defect" ∧ pyLower "Unknown_defect" ≠ pyLower kv.1) :=
  c2_partition [⟨"Short", 91/100⟩, ⟨"Unknown_defect", 3/10⟩] "Unknown_defect"

/-- Claim C3: every resolved entry carries the matched table entry verbatim
(the matched key/record pair is literally a member of the table, so its
solution text is the canonical text with no truncation or reformatting), and
the input label agrees with the matched key up to case. -/
theorem c3_solution_verbatim (dets : List Detection) (l key : String) (rec : Record)
    (h : (l, key, rec) ∈ (synthesize DEFECT_SOLUTIONS dets).resolved) :
    (key, rec) ∈ DEFECT_SOLUTIONS ∧ pyLower l = pyLower key := by
  obtain ⟨hl, hres⟩ := (mem_resolved_iff _ _ _ _).mp h
  rcases (resolveLabel_eq_some_iff _ _ _).mp hres with hex | ⟨hexn, hci⟩
  · obtain ⟨hmem, hkey⟩ := exactLookup_eq_some _ _ _ hex
    have hkey2 : key = l := hkey
    refine ⟨hmem, ?_⟩
    rw [hkey2]
  · obtain ⟨hmem, hlow⟩ := ciLookup_eq_some _ _ _ hci
    exact ⟨hmem, hlow⟩

/-- Witness for C3 at the detection ("missing_hole", 0.5). -/
theorem c3_solution_verbatim_witness :
    (("missing_hole", "Missing_hole", missingHoleRecord) ∈
        (synthesize DEFECT_SOLUTIONS [⟨"missing_hole", 1/2⟩]).resolved)
  ∧ (("Missing_hole", missingHoleRecord) ∈ DEFECT_SOLUTIONS ∧
        pyLower "missing_hole" = pyLower "Missing_hole") :=
  ⟨by decide, c3_solution_verbatim [⟨"missing_hole", 1/2⟩] "missing_hole" "Missing_hole"
      missingHoleRecord (by decide)⟩

/-- Claim C4: report synthesis is a total function: the empty detection list
yields the empty report (not an error), and an input in which no label
resolves yields an empty resolved list with every unique label reported
unresolved. -/
theorem c4_totality (dets : List Detection)
    (h : ∀ l ∈ dets.map Detection.label, resolveLabel DEFECT_SOLUTIONS l = none) :
    synthesize DEFECT_SOLUTIONS [] =
      { uniqueLabels := [], resolved := [], unresolved := [] }
  ∧ (synthesize DEFECT_SOLUTIONS dets).resolved = []
  ∧ (synthesize DEFECT_SOLUTIONS dets).unresolved =
      (synthesize DEFECT_SOLUTIONS dets).uniqueLabels := by
  refine ⟨rfl, ?_, ?_⟩
  · have hr : (synthesize DEFECT_SOLUTIONS dets).resolved
        = (dets.map Detection.label).dedup.filterMap
            (fun l => (resolveLabel DEFECT_SOLUTIONS l).map (fun kv => (l, kv))) := rfl
    rw [hr, List.filterMap_eq_nil_iff]
    intro a ha
    rw [h a (List.mem_dedup.mp ha)]
    rfl
  · have hu : (synthesize DEFECT_SOLUTIONS dets).unresolved
        = (dets.map Detection.label).dedup.filter
            (fun l => (resolveLabel DEFECT_SOLUTIONS l).isNone) := rfl
    have hq : (synthesize DEFECT_SOLUTIONS dets).uniqueLabels
        = (dets.map Detection.label).dedup := rfl
    rw [hu, hq, List.filter_eq_self]
    intro a ha
    rw [h a (List.mem_dedup.mp ha)]
    rfl

/-- Witness for C4 at the fully-unresolved detection list [("Unknown_defect", 0.3)]. -/
theorem c4_totality_witness :
    (∀ l ∈ ([⟨"Unknown_defect", 3/10⟩] : List Detection).map Detection.label,
        resolveLabel DEFECT_SOLUTIONS l = none)
  ∧ (synthesize DEFECT_SOLUTIONS [] =
        { uniqueLabels := [], resolved := [], unresolved := [] }
    ∧ (synthesize DEFECT_SOLUTIONS [⟨"Unknown_defect", 3/10⟩]).resolved = []
    ∧ (synthesize DEFECT_SOLUTIONS [⟨"Unknown_defect", 3/10⟩]).unresolved =
        (synthesize DEFECT_SOLUTIONS [⟨"Unknown_defect", 3/10⟩]).uniqueLabels) :=
  ⟨by decide, c4_totality [⟨"Unknown_defect", 3/10⟩] (by decide)⟩

/-- Claim C5: round-trip: every key literally present in the remediation
table, fed back as a detected label, resolves to its own entry via the
exact-match lookup, so the case-insensitive fallback is never entered. -/
theorem c5_roundtrip : ∀ kv ∈ DEFECT_SOLUTIONS,
    exactLookup DEFECT_SOLUTIONS kv.1 = some kv
  ∧ resolveLabel DEFECT_SOLUTIONS kv.1 = some kv := by decide

/-- Witness for C5 at the table entry ("Short", shortRecord). -/
theorem c5_roundtrip_witness :
    (("Short", shortRecord) ∈ DEFECT_SOLUTIONS)
  ∧ (exactLookup DEFECT_SOLUTIONS "Short" = some ("Short", shortRecord)
    ∧ resolveLabel DEFECT_SOLUTIONS "Short" = some ("Short", shortRecord)) :=
  ⟨by decide, c5_roundtrip ("Short", shortRecord) (by decide)⟩

/-- Claim C6: for the detections [("Short", 0.91), ("short", 0.40),
("Unknown_defect", 0.30)], the unique labels are Short, short and
Unknown_defect; both Short and short resolve to the Short record, whose
solution text contains "multimeter"; Unknown_defect is the sole unresolved
label. -/
theorem c6_scenario :
    (synthesize DEFECT_SOLUTIONS
        [⟨"Short", 91/100⟩, ⟨"short", 40/100⟩, ⟨"Unknown_defect", 30/100⟩]).uniqueLabels
      = ["Short", "short", "Unknown_defect"]
  ∧ (synthesize DEFECT_SOLUTIONS
        [⟨"Short", 91/100⟩, ⟨"short", 40/100⟩, ⟨"Unknown_defect", 30/100⟩]).resolved
      = [("Short", "Short", shortRecord), ("short", "Short", shortRecord)]
  ∧ (synthesize DEFECT_SOLUTIONS
        [⟨"Short", 91/100⟩, ⟨"short", 40/100⟩, ⟨"Unknown_defect", 30/100⟩]).unresolved
      = ["Unknown_defect"]
  ∧ "multimeter".data <:+: shortRecord.solution.data :=
  ⟨by decide, by decide, by decide, by decide⟩

theorem length_filter_le_one_of_nodup (l : List (String × Record))
    (hnd : (l.map (fun kv => pyLower kv.1)).Nodup) (s : String) :
    (l.filter (fun kv => pyLower s == pyLower kv.1)).length ≤ 1 := by
  induction l with
  | nil => simp
  | cons x xs ih =>
    simp only [List.map_cons, List.nodup_cons] at hnd
    obtain ⟨hx, hxs⟩ := hnd
    by_cases h : pyLower s == pyLower x.1
    · have hfe : xs.filter (fun kv => pyLower s == pyLower kv.1) = [] := by
        rw [List.filter_eq_nil_iff]
        intro kv hkv
        simp only [beq_iff_eq]
        intro hc
        apply hx
        rw [List.mem_map]
        refine ⟨kv, hkv, ?_⟩
        rw [← hc, beq_iff_eq.mp h]
      have hstep : List.filter (fun kv => pyLower s == pyLower kv.1) (x :: xs)
          = x :: List.filter (fun kv => pyLower s == pyLower kv.1) xs := by
        simp [List.filter_cons, h]
      rw [hstep, hfe]
      simp
    · have hstep : List.filter (fun kv => pyLower s == pyLower kv.1) (x :: xs)
          = List.filter (fun kv => pyLower s == pyLower kv.1) xs := by
        simp [List.filter_cons, h]
      rw [hstep]
      exact ih hxs

/-- Claim C7: the remediation table is a fixed mapping of exactly the six
canonical keys Missing_hole, Mouse_bite, Open_circuit, Short, Spur and
Spurious_copper; the lowered keys are pairwise distinct, and consequently the
case-insensitive fallback has at most one candidate key for any input
label. -/
theorem c7_table_shape :
    DEFECT_SOLUTIONS.map Prod.fst =
      ["Missing_hole", "Mouse_bite", "Open_circuit", "Short", "Spur", "Spurious_copper"]
  ∧ (DEFECT_SOLUTIONS.map (fun kv => pyLower kv.1)).Nodup
  ∧ ∀ l : String,
      (DEFECT_SOLUTIONS.filter (fun kv => pyLower l == pyLower kv.1)).length ≤ 1 :=
  ⟨by decide, by decide,
   fun l => length_filter_le_one_of_nodup DEFECT_SOLUTIONS (by decide) l⟩

/-- Claim C8: for any two detection lists presenting the same label set
(possibly enumerated in a different order or with different multiplicities
and confidences), synthesis agrees on which labels resolve and which do not:
the resolved and unresolved outputs are permutations of one another, and
membership in them coincides. -/
theorem c8_membership_deterministic (dets1 dets2 : List Detection)
    (h : (dets1.map Detection.label).dedup.Perm (dets2.map Detection.label).dedup) :
    ((synthesize DEFECT_SOLUTIONS dets1).resolved.Perm
        (synthesize DEFECT_SOLUTIONS dets2).resolved)
  ∧ ((synthesize DEFECT_SOLUTIONS dets1).unresolved.Perm
        (synthesize DEFECT_SOLUTIONS dets2).unresolved)
  ∧ (∀ l, l ∈ resolvedLabels (synthesize DEFECT_SOLUTIONS dets1) ↔
          l ∈ resolvedLabels (synthesize DEFECT_SOLUTIONS dets2))
  ∧ (∀ l, l ∈ (synthesize DEFECT_SOLUTIONS dets1).unresolved ↔
          l ∈ (synthesize DEFECT_SOLUTIONS dets2).unresolved) := by
  have hr : ((dets1.map Detection.label).dedup.filterMap
        (fun l => (resolveLabel DEFECT_SOLUTIONS l).map (fun kv => (l, kv)))).Perm
      ((dets2.map Detection.label).dedup.filterMap
        (fun l => (resolveLabel DEFECT_SOLUTIONS l).map (fun kv => (l, kv)))) :=
    h.filterMap _
  have hu : ((dets1.map Detection.label).dedup.filter
        (fun l => (resolveLabel DEFECT_SOLUTIONS l).isNone)).Perm
      ((dets2.map Detection.label).dedup.filter
        (fun l => (resolveLabel DEFECT_SOLUTIONS l).isNone)) :=
    h.filter _
  exact ⟨hr, hu, fun l => (hr.map (fun e => e.1)).mem_iff, fun l => hu.mem_iff⟩

/-- Witness for C8: the same label set presented with different multiplicity and confidences. -/
theorem c8_membership_deterministic_witness :
    ((([⟨"Short", 1/2⟩, ⟨"Short", 1/4⟩, ⟨"Unknown_defect", 1/5⟩] : List Detection).map
        Detection.label).dedup.Perm
      ((([⟨"Unknown_defect", 1/3⟩, ⟨"Short", 9/10⟩] : List Detection).map
        Detection.label).dedup))
  ∧ (((synthesize DEFECT_SOLUTIONS [⟨"Short", 1/2⟩, ⟨"Short", 1/4⟩, ⟨"Unknown_defect", 1/5⟩]).resolved.Perm
        (synthesize DEFECT_SOLUTIONS [⟨"Unknown_defect", 1/3⟩, ⟨"Short", 9/10⟩]).resolved)
    ∧ ((synthesize DEFECT_SOLUTIONS [⟨"Short", 1/2⟩, ⟨"Short", 1/4⟩, ⟨"Unknown_defect", 1/5⟩]).unresolved.Perm
        (synthesize DEFECT_SOLUTIONS [⟨"Unknown_defect", 1/3⟩, ⟨"Short", 9/10⟩]).unresolved)
    ∧ (∀ l, l ∈ resolvedLabels (synthesize DEFECT_SOLUTIONS [⟨"Short", 1/2⟩, ⟨"Short", 1/4⟩, ⟨"Unknown_defect", 1/5⟩]) ↔
            l ∈ resolvedLabels (synthesize DEFECT_SOLUTIONS [⟨"Unknown_defect", 1/3⟩, ⟨"Short", 9/10⟩]))
    ∧ (∀ l, l ∈ (synthesize DEFECT_SOLUTIONS [⟨"Short", 1/2⟩, ⟨"Short", 1/4⟩, ⟨"Unknown_defect", 1/5⟩]).unresolved ↔
            l ∈ (synthesize DEFECT_SOLUTIONS [⟨"Unknown_defect", 1/3⟩, ⟨"Short", 9/10⟩]).unresolved)) :=
  ⟨by decide, c8_membership_deterministic
      [⟨"Short", 1/2⟩, ⟨"Short", 1/4⟩, ⟨"Unknown_defect", 1/5⟩]
      [⟨"Unknown_defect", 1/3⟩, ⟨"Short", 9/10⟩] (by decide)⟩

theorem getUser_append_self (users : List (String × String)) (u hv : String)
    (h : getUser users u = none) :
    getUser (users ++ [(u, hv)]) u = some hv := by
  unfold getUser at h ⊢
  rw [List.find?_append]
  have hf : users.find? (fun kv => kv.1 == u) = none := by
    cases hf : users.find? (fun kv => kv.1 == u) with
    | none => rfl
    | some kv => rw [hf] at h; simp at h
  rw [hf]
  simp [List.find?]

theorem getUser_append_other (users : List (String × String)) (u hv v : String)
    (h : v ≠ u) :
    getUser (users ++ [(u, hv)]) v = getUser users v := by
  unfold getUser
  rw [List.find?_append]
  have hnil : List.find? (fun kv => kv.1 == v) [(u, hv)] = none := by
    have hb : (u == v) = false := by
      rw [beq_eq_false_iff_ne]
      exact fun hh => h hh.symm
    simp [List.find?, hb]
  rw [hnil]
  cases hf : users.find? (fun kv => kv.1 == v) <;> simp

/-- Claim C9: sign-up is atomic on the users mapping: an empty username, an
empty password or an already-existing username leaves the mapping unchanged;
otherwise exactly one entry mapping the new username to the digest of the
password is appended, and every pre-existing entry is unchanged. -/
theorem c9_signup_atomic (hashFn : String → String) (s : SessionState)
    (u p : String) :
    ((u = "" ∨ p = "" ∨ (getUser s.users u).isSome) →
        (signupSubmit hashFn s u p).users = s.users)
  ∧ (u ≠ "" → p ≠ "" → getUser s.users u = none →
        (signupSubmit hashFn s u p).users = s.users ++ [(u, hashFn p)]
      ∧ getUser (signupSubmit hashFn s u p).users u = some (hashFn p)
      ∧ (∀ v, v ≠ u →
          getUser (signupSubmit hashFn s u p).users v = getUser s.users v)) := by
  constructor
  · intro h
    unfold signupSubmit
    rcases h with h | h | h
    · rw [if_pos (Or.inl h)]
    · rw [if_pos (Or.inr h)]
    · by_cases he : u = "" ∨ p = ""
      · rw [if_pos he]
      · rw [if_neg he, if_pos h]
  · intro hu hp hg
    have hne : ¬(u = "" ∨ p = "") := by
      rintro (h | h)
      · exact hu h
      · exact hp h
    have hns : ¬((getUser s.users u).isSome = true) := by
      rw [hg]
      simp
    unfold signupSubmit
    rw [if_neg hne, if_neg hns]
    refine ⟨rfl, ?_, ?_⟩
    · exact getUser_append_self s.users u (hashFn p) hg
    · intro v hv
      exact getUser_append_other s.users u (hashFn p) v hv

/-- Witness for C9: signing up "alice" with password "pw123" over a store holding only "bob". -/
theorem c9_signup_atomic_witness :
    ("alice" ≠ "" ∧ "pw123" ≠ "" ∧ getUser [("bob", "x")] "alice" = none)
  ∧ (signupSubmit (fun x => x) ⟨false, "", "signup", [("bob", "x")]⟩ "alice" "pw123").users
      = [("bob", "x")] ++ [("alice", "pw123")] := by
  refine ⟨⟨by decide, by decide, by decide⟩, ?_⟩
  exact ((c9_signup_atomic (fun x => x) ⟨false, "", "signup", [("bob", "x")]⟩
    "alice" "pw123").2 (by decide) (by decide) (by decide)).1

/-- Claim C10: login succeeds exactly when the submitted username is a key of
the users mapping whose stored value equals the digest of the submitted
password; only on success are logged_in set, the username recorded and the
page set to prediction, a failed attempt leaves the session state unchanged,
and the router never renders the prediction page while logged_in is false. -/
theorem c10_login (hashFn : String → String) (s : SessionState) (u p : String) :
    ((getUser s.users u = some (hashFn p)) →
        (loginSubmit hashFn s u p).logged_in = true
      ∧ (loginSubmit hashFn s u p).username = u
      ∧ (loginSubmit hashFn s u p).page = "prediction"
      ∧ (loginSubmit hashFn s u p).users = s.users)
  ∧ ((getUser s.users u ≠ some (hashFn p)) → loginSubmit hashFn s u p = s)
  ∧ (∀ s2 : SessionState, s2.logged_in = false →
        route s2 ≠ RenderedPage.prediction) := by
  refine ⟨?_, ?_, ?_⟩
  · intro h
    unfold loginSubmit
    rw [if_pos h]
    exact ⟨rfl, rfl, rfl, rfl⟩
  · intro h
    unfold loginSubmit
    rw [if_neg h]
  · intro s2 h2
    unfold route
    split_ifs with hh hs hl hp
    · exact fun hc => RenderedPage.noConfusion hc
    · exact fun hc => RenderedPage.noConfusion hc
    · exact fun hc => RenderedPage.noConfusion hc
    · exact absurd hp.1 (by simp [h2])
    · exact fun hc => RenderedPage.noConfusion hc

/-- Witness for C10: logging in "testuser" against a store mapping it to the
digest of "password123" (digest function taken as the identity), and a router
state with `page = "prediction"` but `logged_in = false`. -/
theorem c10_login_witness :
    (getUser [("testuser", "password123")] "testuser" = some ((fun x => x) "password123"))
  ∧ (loginSubmit (fun x => x) ⟨false, "", "login", [("testuser", "password123")]⟩
      "testuser" "password123").logged_in = true
  ∧ (loginSubmit (fun x => x) ⟨false, "", "login", [("testuser", "password123")]⟩
      "testuser" "password123").page = "prediction"
  ∧ route ⟨false, "", "prediction", []⟩ ≠ RenderedPage.prediction := by
  refine ⟨by decide, ?_, ?_, ?_⟩
  · exact ((c10_login (fun x => x) ⟨false, "", "login", [("testuser", "password123")]⟩
      "testuser" "password123").1 (by decide)).1
  · exact ((c10_login (fun x => x) ⟨false, "", "login", [("testuser", "password123")]⟩
      "testuser" "password123").1 (by decide)).2.2.1
  · exact (c10_login (fun x => x) ⟨false, "", "prediction", []⟩ "u" "p").2.2
      ⟨false, "", "prediction", []⟩ rfl

end PCBDefect
